import Mathlib

set_option maxRecDepth 10000

/-!
Verification development for the parity-testing harness (`scripts/parity_lib.py`,
`scripts/parity_swarm.py`, `scripts/parity_aggregate.py`).

The Python sources are shallowly embedded: pure functions become Lean functions,
floating-point diff percentages become rationals (`ℚ`), Python `dict`s become
association lists with insert-or-replace semantics, filesystem paths become lists
of path components (`List (List Char)`; `pathlib` splits each joined string on
the separator and drops empty segments), and fallible code returns `Except`.
File-system and subprocess effects consumed by `execute_work_unit` and
`analyze_frame_blankness` are supplied as explicit input data mirroring every
observation the Python code makes of its environment.
-/

namespace Parity

/-! ### Python helpers: truthiness, min/max/median (`statistics.median`) -/

/-- Truthiness of a Python `Optional[str]`: `None` and `""` are falsy. -/
def isTruthy : Option String → Bool
  | none => false
  | some s => !s.isEmpty

/-- Python `min(...)` over a non-empty list (callers guard non-emptiness). -/
def pyMin : List ℚ → ℚ
  | [] => 0
  | x :: xs => xs.foldl min x

/-- Python `max(...)` over a non-empty list (callers guard non-emptiness). -/
def pyMax : List ℚ → ℚ
  | [] => 0
  | x :: xs => xs.foldl max x

/-- Ascending numeric order used by Python `sorted` on floats. -/
def ratLE (a b : ℚ) : Prop := a ≤ b

instance : DecidableRel ratLE := fun a b => inferInstanceAs (Decidable (a ≤ b))

/-- Modelled from Python's `statistics.median`: sort ascending; odd length takes
the middle element, even length averages the two middle elements. -/
def pyMedian (l : List ℚ) : ℚ :=
  let s := List.insertionSort ratLE l
  let n := s.length
  if n % 2 = 1 then s.getD (n / 2) 0
  else (s.getD (n / 2 - 1) 0 + s.getD (n / 2) 0) / 2

/-! ### Data classes from `parity_lib.py` -/

/-- `WorkUnit` dataclass: one case, one viewport, one iteration. -/
structure WorkUnit where
  case_id : String
  html_path : String
  width : ℕ
  height : ℕ
  case_type : String
  viewport_name : String
  iteration : ℕ
deriving DecidableEq, Repr

/-- `CaseResult` dataclass: result of running a single work unit.
Field defaults mirror the dataclass defaults (`diff_pct=100.0`, `passed=False`,
`is_blank_frame=False`, ...). JSON-ish attribution payloads are modelled as
association lists. -/
structure CaseResult where
  case_id : String
  case_type : String
  viewport : String
  iteration : ℕ
  width : ℕ
  height : ℕ
  capture_dir : String := ""
  diff_dir : String := ""
  diff_pct : ℚ := 100
  diff_pixels : ℕ := 0
  total_pixels : ℕ := 0
  threshold : ℚ := 15
  passed : Bool := false
  error : Option String := none
  is_blank_frame : Bool := false
  blank_frame_ratio : ℚ := 0
  unique_colors : ℕ := 0
  attribution_path : Option String := none
  overlay_path : Option String := none
  taxonomy : Option (List (String × ℚ)) := none
  top_contributors : Option (List (List (String × ℚ))) := none
  capture_ms : ℕ := 0
  compare_ms : ℕ := 0
deriving DecidableEq, Repr

/-- `AggregatedResult` dataclass: aggregated result for a case across iterations. -/
structure AggregatedResult where
  case_id : String
  case_type : String
  viewport : String
  width : ℕ
  height : ℕ
  threshold : ℚ
  diff_pct_median : ℚ := 100
  diff_pct_min : ℚ := 100
  diff_pct_max : ℚ := 100
  diff_pct_variance : ℚ := 0
  iterations : ℕ := 0
  stable : Bool := false
  passed : Bool := false
  best_diff_dir : String := ""
  best_attribution_path : Option String := none
  best_overlay_path : Option String := none
  best_taxonomy : Option (List (String × ℚ)) := none
  best_top_contributors : Option (List (List (String × ℚ))) := none
  iteration_diffs : List ℚ := []
  errors : List String := []
deriving DecidableEq, Repr

/-! ### `aggregate_iterations` -/

/-- The error string a result contributes to the aggregate's `errors` list
(`if r.error: errors.append(r.error)`), or `none` if the result is scored. -/
def errOf (r : CaseResult) : Option String :=
  if isTruthy r.error then r.error else none

/-- The scored (non-errored) results of a group, in order. -/
def scoredResults (results : List CaseResult) : List CaseResult :=
  results.filter (fun r => !(isTruthy r.error))

/-- The diffs entering the statistic: `diff_pct` of each scored result. -/
def scoredDiffs (results : List CaseResult) : List ℚ :=
  (scoredResults results).map (fun r => r.diff_pct)

/-- The retained error strings of a group, in order. -/
def errStrings (results : List CaseResult) : List String :=
  results.filterMap errOf

/-- Python's best-iteration scan: starts with `best_diff = inf`, keeps the
strictly smallest `diff_pct` seen among scored results (first wins ties). -/
def bestOf (scored : List CaseResult) : Option CaseResult :=
  scored.foldl
    (fun acc r =>
      match acc with
      | none => some r
      | some b => if r.diff_pct < b.diff_pct then some r else some b)
    none

/-- `aggregate_iterations(results, max_variance=0.10)`: aggregates iteration
results for one case+viewport. An empty input raises `ValueError`, modelled as
`Except.error`. -/
def aggregate_iterations (results : List CaseResult) (max_variance : ℚ) :
    Except String AggregatedResult :=
  match results with
  | [] => Except.error "No results to aggregate"
  | first :: _ =>
    let errors := errStrings results
    let diffs := scoredDiffs results
    let best_result := bestOf (scoredResults results)
    let agg : AggregatedResult :=
      { case_id := first.case_id
        case_type := first.case_type
        viewport := first.viewport
        width := first.width
        height := first.height
        threshold := first.threshold
        errors := errors
        iteration_diffs := diffs
        iterations := results.length }
    if diffs.isEmpty then Except.ok agg
    else
      let mn := pyMin diffs
      let mx := pyMax diffs
      let md := pyMedian diffs
      let agg1 :=
        { agg with
          diff_pct_median := md
          diff_pct_min := mn
          diff_pct_max := mx
          diff_pct_variance := mx - mn
          stable := decide (3 ≤ diffs.length) && decide (mx - mn ≤ max_variance)
          passed := decide (md ≤ agg.threshold) }
      match best_result with
      | none => Except.ok agg1
      | some b =>
        Except.ok
          { agg1 with
            best_diff_dir := b.diff_dir
            best_attribution_path := b.attribution_path
            best_overlay_path := b.overlay_path
            best_taxonomy := b.taxonomy
            best_top_contributors := b.top_contributors }

/-- Projection helpers over `aggregate_iterations` outcomes, for closed
concrete-scenario statements. -/
def aggField {α : Type} (f : AggregatedResult → α) :
    Except String AggregatedResult → Option α
  | Except.ok a => some (f a)
  | Except.error _ => none

/-- A concrete scored iteration result used by the §8 aggregation scenario. -/
def demoResult (iter : ℕ) (d : ℚ) : CaseResult :=
  { case_id := "alpha"
    case_type := "websuite"
    viewport := "800x600"
    iteration := iter
    width := 800
    height := 600
    threshold := 15
    diff_pct := d }

/-- The scenario group: three iterations with diffs `[4.0, 4.5, 5.0]`. -/
def demoGroup : List CaseResult :=
  [demoResult 1 4, demoResult 2 (9/2), demoResult 3 5]

/-! ### Case catalog and thresholds (`parity_lib.py`) -/

/-- A catalog entry with its case type attached (the shape produced by
`get_all_cases` and consumed by `generate_work_units`). -/
structure CaseSpec where
  cid : String
  path : String
  w : ℕ
  h : ℕ
  ctype : String
deriving DecidableEq, Repr

/-- `BUILTINS` case table. -/
def BUILTINS : List (String × String × ℕ × ℕ) :=
  [("new_tab", "crates/hiwave-app/src/ui/new_tab.html", 1280, 800),
   ("about", "crates/hiwave-app/src/ui/about.html", 800, 600),
   ("settings", "crates/hiwave-app/src/ui/settings.html", 1024, 768),
   ("chrome_rustkit", "crates/hiwave-app/src/ui/chrome.html", 1280, 100),
   ("shelf", "crates/hiwave-app/src/ui/shelf.html", 1280, 120)]

/-- `WEBSUITE` case table. -/
def WEBSUITE : List (String × String × ℕ × ℕ) :=
  [("article-typography", "websuite/cases/article-typography/index.html", 1280, 800),
   ("card-grid", "websuite/cases/card-grid/index.html", 1280, 800),
   ("css-selectors", "websuite/cases/css-selectors/index.html", 800, 1200),
   ("flex-positioning", "websuite/cases/flex-positioning/index.html", 800, 1000),
   ("form-elements", "websuite/cases/form-elements/index.html", 800, 600),
   ("gradient-backgrounds", "websuite/cases/gradient-backgrounds/index.html", 800, 600),
   ("image-gallery", "websuite/cases/image-gallery/index.html", 1280, 800),
   ("sticky-scroll", "websuite/cases/sticky-scroll/index.html", 1280, 800)]

/-- `MICRO_TESTS` case table. -/
def MICRO_TESTS : List (String × String × ℕ × ℕ) :=
  [("backgrounds", "websuite/micro/backgrounds/index.html", 900, 1000),
   ("bg-solid", "websuite/micro/bg-solid/index.html", 800, 600),
   ("bg-pure", "websuite/micro/bg-pure/index.html", 800, 600),
   ("combinators", "websuite/micro/combinators/index.html", 800, 800),
   ("form-controls", "websuite/micro/form-controls/index.html", 800, 1200),
   ("gradients", "websuite/micro/gradients/index.html", 900, 1000),
   ("images-intrinsic", "websuite/micro/images-intrinsic/index.html", 800, 1400),
   ("pseudo-classes", "websuite/micro/pseudo-classes/index.html", 800, 800),
   ("rounded-corners", "websuite/micro/rounded-corners/index.html", 900, 1000),
   ("specificity", "websuite/micro/specificity/index.html", 800, 600)]

/-- `VIEWPORTS`: the standard viewports for multi-viewport testing, in source order. -/
def VIEWPORTS : List (ℕ × ℕ × String) :=
  [(800, 600, "800x600"), (1280, 800, "1280x800"), (1920, 1080, "1920x1080")]

/-- Substring test on char lists (Python's `needle in haystack` for strings). -/
def hasSubstr (hay pat : List Char) : Bool :=
  match hay with
  | [] => pat.isEmpty
  | _ :: rest => pat.isPrefixOf hay || hasSubstr rest pat

/-- Python `pat in s` for strings. -/
def strContains (s pat : String) : Bool := hasSubstr s.toList pat.toList

/-- `get_threshold(case_id)`: threshold selection by substring of the case id,
with the `THRESHOLDS` table inlined. -/
def get_threshold (case_id : String) : ℚ :=
  if strContains case_id "form" then 12
  else if strContains case_id "image" || strContains case_id "gallery" then 10
  else if strContains case_id "gradient" then 15
  else if strContains case_id "sticky" || strContains case_id "scroll" then 25
  else if strContains case_id "typography" || strContains case_id "text" then 20
  else 15

/-- The three case tables with their type tags, in `get_all_cases` insertion
order (builtins, websuite, micro). -/
def allCasesList : List CaseSpec :=
  BUILTINS.map (fun t => ⟨t.1, t.2.1, t.2.2.1, t.2.2.2, "builtins"⟩) ++
  WEBSUITE.map (fun t => ⟨t.1, t.2.1, t.2.2.1, t.2.2.2, "websuite"⟩) ++
  MICRO_TESTS.map (fun t => ⟨t.1, t.2.1, t.2.2.1, t.2.2.2, "micro"⟩)

/-- Lookup in `get_all_cases()` (all case ids are distinct, so the first match
is the dict entry). -/
def lookupCase (cid : String) : Option CaseSpec :=
  allCasesList.find? (fun c => decide (c.cid = cid))

/-! ### Work-unit generation and sharding (`parity_swarm.py`) -/

/-- The scope-selected case list (`scope in ["all", ...]` branches). -/
def scopeCases (scope : String) : List CaseSpec :=
  (if scope = "all" ∨ scope = "builtins"
   then BUILTINS.map (fun t => ⟨t.1, t.2.1, t.2.2.1, t.2.2.2, "builtins"⟩) else []) ++
  (if scope = "all" ∨ scope = "websuite"
   then WEBSUITE.map (fun t => ⟨t.1, t.2.1, t.2.2.1, t.2.2.2, "websuite"⟩) else []) ++
  (if scope = "all" ∨ scope = "micro"
   then MICRO_TESTS.map (fun t => ⟨t.1, t.2.1, t.2.2.1, t.2.2.2, "micro"⟩) else [])

/-- The effective case list: an explicit non-empty `cases` argument (Python
truthiness) selects known ids in the given order; otherwise the scope filter
applies. -/
def effectiveCaseList (scope : String) (cases : Option (List String)) : List CaseSpec :=
  match cases with
  | some cs => if cs.isEmpty then scopeCases scope else cs.filterMap lookupCase
  | none => scopeCases scope

/-- Sort key of `sorted(case_list, key=lambda x: x[0])`. -/
def caseLE (a b : CaseSpec) : Prop := a.cid ≤ b.cid

instance : DecidableRel caseLE := fun a b => inferInstanceAs (Decidable (a.cid ≤ b.cid))

instance : IsTotal CaseSpec caseLE := ⟨fun a b => le_total a.cid b.cid⟩

instance : IsTrans CaseSpec caseLE := ⟨fun _ _ _ h1 h2 => le_trans h1 h2⟩

/-- The viewport list actually used by the generation loop: explicit viewports
filter `VIEWPORTS`; a falsy `viewports` argument yields `None`, and an empty
filtered list is also falsy at the `if viewport_list:` check, so both are
modelled as `[]` (meaning: use each case's native viewport). -/
def usedViewports (viewports : Option (List String)) : List (ℕ × ℕ × String) :=
  match viewports with
  | none => []
  | some vs =>
    if vs.isEmpty then [] else VIEWPORTS.filter (fun t => vs.contains t.2.2)

/-- The case list after `sorted(case_list, key=lambda x: x[0])` (Python's sort
is stable; so is insertion sort). -/
def sortedCaseList (scope : String) (cases : Option (List String)) : List CaseSpec :=
  List.insertionSort caseLE (effectiveCaseList scope cases)

/-- The work units one case contributes: over the explicit viewport list when
it is truthy, otherwise at the case's native viewport; iterations `1..n`. -/
def unitsForCase (vpl : List (ℕ × ℕ × String)) (iterations : ℕ) (c : CaseSpec) :
    List WorkUnit :=
  if vpl.isEmpty then
    (List.range iterations).map (fun k =>
      ⟨c.cid, c.path, c.w, c.h, c.ctype, Nat.repr c.w ++ "x" ++ Nat.repr c.h, k + 1⟩)
  else
    vpl.flatMap (fun vp =>
      (List.range iterations).map (fun k =>
        ⟨c.cid, c.path, vp.1, vp.2.1, c.ctype, vp.2.2, k + 1⟩))

/-- `generate_work_units(scope, cases, viewports, iterations)`. -/
def generate_work_units (scope : String) (cases : Option (List String))
    (viewports : Option (List String)) (iterations : ℕ) : List WorkUnit :=
  (sortedCaseList scope cases).flatMap (unitsForCase (usedViewports viewports) iterations)

/-- The `enumerate(units)` pairs a shard keeps: positions `i` with
`i % shard_count == shard_index`. -/
def enumFilter (units : List WorkUnit) (shard_count shard_index : ℕ) :
    List (ℕ × WorkUnit) :=
  units.enum.filter (fun p => decide (p.1 % shard_count = shard_index))

/-- `shard_work_units(units, shard_index, shard_count)`. -/
def shard_work_units (units : List WorkUnit) (shard_index shard_count : ℕ) :
    List WorkUnit :=
  (enumFilter units shard_count shard_index).map Prod.snd

/-- The ordering the C5 claim asserts: lexicographic on
`(case_id, viewport_name, iteration)` with string comparison on both
string components. -/
def specLex (u v : WorkUnit) : Prop :=
  u.case_id < v.case_id ∨
    (u.case_id = v.case_id ∧
      (u.viewport_name < v.viewport_name ∨
        (u.viewport_name = v.viewport_name ∧ u.iteration ≤ v.iteration)))

instance : DecidableRel specLex := fun u v => by
  unfold specLex
  infer_instance

/-- Viewport names in the order the generator emits them. -/
def vpNameOrder (viewports : Option (List String)) : List String :=
  (usedViewports viewports).map (fun t => t.2.2)

/-- The order `generate_work_units` actually produces: lexicographic on
`(case_id, position of the viewport in the configured viewport list,
iteration)`. -/
def unitOrder (vpn : List String) (u v : WorkUnit) : Prop :=
  u.case_id < v.case_id ∨
    (u.case_id = v.case_id ∧
      (vpn.indexOf u.viewport_name < vpn.indexOf v.viewport_name ∨
        (u.viewport_name = v.viewport_name ∧ u.iteration ≤ v.iteration)))

/-! ### Artifact paths (`get_artifact_paths`)

`pathlib` parses every string joined onto a path by splitting it on the
separator and dropping empty segments, so a path is modelled as a list of
components, each a list of characters. -/

/-- Raw split of a character list on `'/'` (may produce empty groups). -/
def splitSeg : List Char → List (List Char)
  | [] => [[]]
  | c :: rest =>
    match splitSeg rest with
    | [] => [[]]
    | g :: gs => if c = '/' then [] :: g :: gs else (c :: g) :: gs

/-- The path components contributed by one joined string: split on the
separator, empty segments dropped (`pathlib` parsing). -/
def pathSegs (s : String) : List (List Char) :=
  (splitSeg s.toList).filter (fun g => !g.isEmpty)

/-- A filesystem path as a list of components. -/
abbrev PathC := List (List Char)

/-- `path / s` in `pathlib`. -/
def pathJoin (p : PathC) (s : String) : PathC := p ++ pathSegs s

/-- A string usable as exactly one path component: non-empty and free of the
path separator (all real case ids and viewport names are of this form). -/
def wellFormedSeg (s : String) : Prop := s ≠ "" ∧ '/' ∉ s.toList

/-- Display form of a path (used for the string fields of `CaseResult`). -/
def pathStr (p : PathC) : String :=
  String.intercalate "/" (p.map (fun g => g.asString))

/-- The dict returned by `get_artifact_paths`. -/
structure ArtifactPaths where
  base : PathC
  capture_dir : PathC
  diff_dir : PathC
  frame_ppm : PathC
  layout_json : PathC
  diff_png : PathC
  heatmap_png : PathC
  overlay_png : PathC
  attribution_json : PathC
deriving DecidableEq, Repr

/-- `get_artifact_paths(run_id, case_id, viewport, iteration, results_root)`.
The default `results_root` depends on the install location (`REPO_ROOT`), so
the root is always passed explicitly here. -/
def get_artifact_paths (run_id case_id viewport : String) (iteration : ℕ)
    (results_root : PathC) : ArtifactPaths :=
  let base :=
    pathJoin (pathJoin (pathJoin (pathJoin results_root run_id) case_id) viewport)
      ("iter-" ++ Nat.repr iteration)
  let capture_dir := pathJoin base "capture"
  let diff_dir := pathJoin base "diff"
  { base := base
    capture_dir := capture_dir
    diff_dir := diff_dir
    frame_ppm := pathJoin capture_dir "frame.ppm"
    layout_json := pathJoin capture_dir "layout.json"
    diff_png := pathJoin diff_dir "diff.png"
    heatmap_png := pathJoin diff_dir "heatmap.png"
    overlay_png := pathJoin diff_dir "overlay.png"
    attribution_json := pathJoin diff_dir "attribution.json" }

/-- All paths in the artifact dict, in declaration order. -/
def artifactList (p : ArtifactPaths) : List PathC :=
  [p.base, p.capture_dir, p.diff_dir, p.frame_ppm, p.layout_json,
   p.diff_png, p.heatmap_png, p.overlay_png, p.attribution_json]

/-! ### Blank-frame detection (`analyze_frame_blankness`) -/

/-- `BLANK_FRAME_THRESHOLD = 0.999`. -/
def BLANK_FRAME_THRESHOLD : ℚ := 999 / 1000

/-- What `analyze_frame_blankness` observes of the frame file: the file can be
absent, raise during reading/parsing (`except` path; the header, dimension or
pixel decoding errors), or parse into a header string, declared dimensions,
max value and raw pixel bytes. -/
inductive FrameInput where
  | missing : FrameInput
  | parseError (msg : String) : FrameInput
  | file (header : String) (width height maxVal : ℕ) (bytes : List ℕ) : FrameInput
deriving DecidableEq, Repr

/-- Complete 3-byte groups of a byte list (an incomplete trailing group is
dropped, as by the `i + 2 >= len(pixel_data)` break). -/
def completeTriples : List ℕ → List (ℕ × ℕ × ℕ)
  | r :: g :: b :: rest => (r, g, b) :: completeTriples rest
  | _ => []

/-- The pixels the counting loop visits: indices below
`min(len(pixel_data), total_pixels * 3)` in steps of 3, stopping when fewer
than three bytes remain. -/
def pixelsOf (total : ℕ) (bytes : List ℕ) : List (ℕ × ℕ × ℕ) :=
  completeTriples (bytes.take (min bytes.length (3 * total)))

/-- `actual_pixels = len(pixel_data) // 3`. -/
def actualPixels (bytes : List ℕ) : ℕ := bytes.length / 3

/-- Background match with the ±2 compression tolerance. -/
def nearBG (bg : ℕ × ℕ × ℕ) (p : ℕ × ℕ × ℕ) : Bool :=
  decide (((p.1 : ℤ) - bg.1).natAbs ≤ 2) &&
  decide (((p.2.1 : ℤ) - bg.2.1).natAbs ≤ 2) &&
  decide (((p.2.2 : ℤ) - bg.2.2).natAbs ≤ 2)

/-- `bg_count`: pixels matching the background within tolerance. -/
def bgCount (bg : ℕ × ℕ × ℕ) (total : ℕ) (bytes : List ℕ) : ℕ :=
  (pixelsOf total bytes).countP (nearBG bg)

/-- `background_ratio = bg_count / max(1, actual_pixels)`. -/
def bgRatio (bg : ℕ × ℕ × ℕ) (total : ℕ) (bytes : List ℕ) : ℚ :=
  (bgCount bg total bytes : ℚ) / (max 1 (actualPixels bytes) : ℕ)

/-- `unique_colors = len(color_counts)`. -/
def uniqueColors (total : ℕ) (bytes : List ℕ) : ℕ :=
  (pixelsOf total bytes).dedup.length

/-- The count of the most frequent color (`max(color_counts.items(), ...)`;
0 when no pixel was visited). -/
def maxColorCount (total : ℕ) (bytes : List ℕ) : ℕ :=
  ((pixelsOf total bytes).dedup.map (fun c => (pixelsOf total bytes).count c)).foldl max 0

/-- `dominant_ratio = dominant_count / max(1, actual_pixels)`. -/
def dominantRatio (total : ℕ) (bytes : List ℕ) : ℚ :=
  (maxColorCount total bytes : ℚ) / (max 1 (actualPixels bytes) : ℕ)

/-- The dict returned by `analyze_frame_blankness` (absent keys take the
neutral values the callers' `.get` defaults supply). -/
structure BlankAnalysis where
  is_blank : Bool
  background_ratio : ℚ
  unique_colors : ℕ
  total_pixels : ℕ := 0
  width : ℕ := 0
  height : ℕ := 0
  error : Option String := none
deriving DecidableEq, Repr

/-- `analyze_frame_blankness(ppm_path, background_color)`; the frame file is
supplied as a `FrameInput`. -/
def analyze_frame_blankness (inp : FrameInput) (bg : ℕ × ℕ × ℕ) : BlankAnalysis :=
  match inp with
  | FrameInput.missing =>
    { error := some "No frame file", is_blank := true, background_ratio := 1,
      unique_colors := 0 }
  | FrameInput.parseError msg =>
    { error := some msg, is_blank := true, background_ratio := 1, unique_colors := 0 }
  | FrameInput.file header w h _ bytes =>
    if header ≠ "P6" ∧ header ≠ "P3" then
      { error := some ("Unknown PPM format: " ++ header), is_blank := true,
        background_ratio := 1, unique_colors := 0 }
    else if w * h = 0 then
      { error := some "Empty frame (0x0)", is_blank := true, background_ratio := 1,
        unique_colors := 0 }
    else
      let total := w * h
      let ratio := bgRatio bg total bytes
      let unique := uniqueColors total bytes
      let blank0 := decide (BLANK_FRAME_THRESHOLD ≤ ratio)
      let blank :=
        if unique < 10 ∧ 0 < unique ∧ blank0 = false then
          (if BLANK_FRAME_THRESHOLD ≤ dominantRatio total bytes then true else blank0)
        else blank0
      { is_blank := blank, background_ratio := ratio, unique_colors := unique,
        total_pixels := actualPixels bytes, width := w, height := h }

/-- The blankness rule as the specification words it: background ratio at
least the threshold, or fewer than 10 distinct colors exist and the most
frequent one covers at least the threshold fraction of the pixels. -/
def blankPerSpec (bg : ℕ × ℕ × ℕ) (w h : ℕ) (bytes : List ℕ) : Prop :=
  BLANK_FRAME_THRESHOLD ≤ bgRatio bg (w * h) bytes ∨
    (uniqueColors (w * h) bytes < 10 ∧
      ∃ c ∈ pixelsOf (w * h) bytes,
        BLANK_FRAME_THRESHOLD ≤
          ((pixelsOf (w * h) bytes).count c : ℚ) / (max 1 (actualPixels bytes) : ℕ))

/-- The unreadable-frame cases the specification enumerates: missing file,
unrecognized PPM format, zero-pixel frame, or a parse failure. -/
def unreadableInput : FrameInput → Prop
  | FrameInput.missing => True
  | FrameInput.parseError _ => True
  | FrameInput.file header w h _ _ => (header ≠ "P6" ∧ header ≠ "P3") ∨ w * h = 0

/-! ### Work-unit execution (`execute_work_unit`)

The external effects the function observes (baseline existence, the capture
subprocess, the captured frame file, the compare subprocess, attribution and
overlay files) are supplied as an explicit environment. Human-readable error
message formatting (`f`-string float formatting) is abstracted to fixed
prefixes. -/

/-- What `run_rustkit_capture` returns. -/
structure CaptureOutcome where
  success : Bool
  error : Option String := none
  elapsed_ms : ℕ := 0
deriving DecidableEq, Repr

/-- What `compare_pixels` returns (absent JSON keys take the `.get` defaults). -/
structure PixelOutcome where
  error : Option String := none
  diffPercent : ℚ := 100
  diffPixels : ℕ := 0
  totalPixels : ℕ := 0
  elapsed_ms : ℕ := 0
deriving DecidableEq, Repr

/-- The environment one execution of a work unit observes. -/
structure ExecEnv where
  baseline_exists : Bool
  capture : CaptureOutcome
  frame : FrameInput
  pixel : PixelOutcome
  attribution_exists : Bool := false
  attr_parse_ok : Bool := true
  attr_taxonomy : Option (List (String × ℚ)) := none
  attr_top : Option (List (List (String × ℚ))) := none
  overlay_exists : Bool := false
deriving DecidableEq, Repr

/-- `execute_work_unit(work_unit, run_id, results_root)` under environment
`env`. -/
def execute_work_unit (wu : WorkUnit) (run_id : String) (env : ExecEnv)
    (results_root : PathC) : CaseResult :=
  let paths := get_artifact_paths run_id wu.case_id wu.viewport_name wu.iteration
    results_root
  let result : CaseResult :=
    { case_id := wu.case_id
      case_type := wu.case_type
      viewport := wu.viewport_name
      iteration := wu.iteration
      width := wu.width
      height := wu.height
      threshold := get_threshold wu.case_id
      capture_dir := pathStr paths.capture_dir
      diff_dir := pathStr paths.diff_dir }
  if env.baseline_exists = false then
    { result with error := some "No Chrome baseline", is_blank_frame := true }
  else
    let r1 := { result with capture_ms := env.capture.elapsed_ms }
    if env.capture.success = false then
      { r1 with
        error := some ("Capture failed: " ++ env.capture.error.getD "Unknown")
        is_blank_frame := true }
    else
      let ba := analyze_frame_blankness env.frame (255, 255, 255)
      let r2 :=
        { r1 with
          is_blank_frame := ba.is_blank
          blank_frame_ratio := ba.background_ratio
          unique_colors := ba.unique_colors }
      if r2.is_blank_frame then
        { r2 with error := some "BLANK_FRAME", diff_pct := 100, passed := false }
      else
        let r3 := { r2 with compare_ms := env.pixel.elapsed_ms }
        if isTruthy env.pixel.error then
          { r3 with error := some ("Compare failed: " ++ env.pixel.error.getD "") }
        else
          let r4 :=
            { r3 with
              diff_pct := env.pixel.diffPercent
              diff_pixels := env.pixel.diffPixels
              total_pixels := env.pixel.totalPixels
              passed := decide (env.pixel.diffPercent ≤ r3.threshold) }
          let r5 :=
            if env.attribution_exists then
              { r4 with
                attribution_path := some (pathStr paths.attribution_json)
                taxonomy := if env.attr_parse_ok then env.attr_taxonomy else none
                top_contributors := if env.attr_parse_ok then env.attr_top else none }
            else r4
          if env.overlay_exists then
            { r5 with overlay_path := some (pathStr paths.overlay_png) }
          else r5

/-! ### Report comparison (`parity_aggregate.py`, `compare_reports`) -/

/-- A per-case entry of an aggregate report, with the fields `compare_reports`
reads. -/
structure RCase where
  case_id : String
  viewport : String
  diff_pct : ℚ
  passed : Bool
deriving DecidableEq, Repr

/-- An aggregate report: its `cases` list and its taxonomy buckets
(`bucket -> total_contribution_pct`). -/
structure Report where
  cases : List RCase
  taxonomy_buckets : List (String × ℚ) := []
deriving DecidableEq, Repr

/-- A regression or improvement entry. -/
structure RegEntry where
  case_id : String
  viewport : String
  baseline_diff : ℚ
  current_diff : ℚ
  delta : ℚ
deriving DecidableEq, Repr

/-- A new-failure entry. -/
structure NewFailureEntry where
  case_id : String
  viewport : String
  diff_pct : ℚ
deriving DecidableEq, Repr

/-- A taxonomy-shift entry. -/
structure TaxShift where
  bucket : String
  baseline_pct : ℚ
  current_pct : ℚ
  delta : ℚ
deriving DecidableEq, Repr

/-- The `summary` block of a comparison (the timestamp is omitted: wall-clock
input). The `pass` key is the gate verdict. -/
structure CompareSummary where
  regressions : ℕ
  improvements : ℕ
  new_failures : ℕ
  total_regression_delta : ℚ
  total_improvement_delta : ℚ
  net_delta : ℚ
  pass : Bool
deriving DecidableEq, Repr

/-- The full result of `compare_reports`. -/
structure CompareResult where
  regression_budget : ℚ
  summary : CompareSummary
  regressions : List RegEntry
  improvements : List RegEntry
  new_failures : List NewFailureEntry
  taxonomy_shifts : List TaxShift
deriving DecidableEq, Repr

/-- Key of a report case in the comparison dicts. -/
abbrev CaseKey := String × String

/-- Python dict insertion: replace in place on an existing key, else append. -/
def dictInsert (d : List (CaseKey × RCase)) (k : CaseKey) (v : RCase) :
    List (CaseKey × RCase) :=
  if d.any (fun p => decide (p.1 = k)) then
    d.map (fun p => if p.1 = k then (k, v) else p)
  else d ++ [(k, v)]

/-- `{(c["case_id"], c["viewport"]): c for c in cases}` — a Python dict
comprehension, iterated in insertion order. -/
def toCaseDict (cs : List RCase) : List (CaseKey × RCase) :=
  cs.foldl (fun d c => dictInsert d (c.case_id, c.viewport) c) []

/-- Dict lookup. -/
def dictGet (d : List (CaseKey × RCase)) (k : CaseKey) : Option RCase :=
  (d.find? (fun p => decide (p.1 = k))).map Prod.snd

/-- Sort order of the `regressions` output (`key=lambda x: -x["delta"]`). -/
def regSortRel (a b : RegEntry) : Prop := b.delta ≤ a.delta

instance : DecidableRel regSortRel := fun a b =>
  inferInstanceAs (Decidable (b.delta ≤ a.delta))

/-- Sort order of the `improvements` output (`key=lambda x: x["delta"]`). -/
def impSortRel (a b : RegEntry) : Prop := a.delta ≤ b.delta

instance : DecidableRel impSortRel := fun a b =>
  inferInstanceAs (Decidable (a.delta ≤ b.delta))

/-- Sort order of `taxonomy_shifts` (`key=lambda x: -abs(x["delta"])`). -/
def taxSortRel (a b : TaxShift) : Prop := |b.delta| ≤ |a.delta|

instance : DecidableRel taxSortRel := fun a b =>
  inferInstanceAs (Decidable (|b.delta| ≤ |a.delta|))

/-- Taxonomy dict of a report (`bucket -> total_contribution_pct`, last
duplicate wins as in a dict comprehension). -/
def taxDict (l : List (String × ℚ)) (b : String) : Option ℚ :=
  ((l.reverse).find? (fun p => decide (p.1 = b))).map Prod.snd

/-- The regression test run for one current-dict entry: a prior baseline entry
exists and the delta exceeds the budget. -/
def regCheck (baseline_cases : List (CaseKey × RCase)) (regression_budget : ℚ)
    (p : CaseKey × RCase) : Option RegEntry :=
  match dictGet baseline_cases p.1 with
  | none => none
  | some base =>
    if regression_budget < p.2.diff_pct - base.diff_pct then
      some { case_id := p.2.case_id, viewport := p.2.viewport,
             baseline_diff := base.diff_pct, current_diff := p.2.diff_pct,
             delta := p.2.diff_pct - base.diff_pct }
    else none

/-- The improvement test: delta below minus the budget. -/
def impCheck (baseline_cases : List (CaseKey × RCase)) (regression_budget : ℚ)
    (p : CaseKey × RCase) : Option RegEntry :=
  match dictGet baseline_cases p.1 with
  | none => none
  | some base =>
    if p.2.diff_pct - base.diff_pct < -regression_budget then
      some { case_id := p.2.case_id, viewport := p.2.viewport,
             baseline_diff := base.diff_pct, current_diff := p.2.diff_pct,
             delta := p.2.diff_pct - base.diff_pct }
    else none

/-- The new-failure test: no baseline entry and the current case failed. -/
def nfCheck (baseline_cases : List (CaseKey × RCase)) (p : CaseKey × RCase) :
    Option NewFailureEntry :=
  match dictGet baseline_cases p.1 with
  | some _ => none
  | none =>
    if p.2.passed then none
    else some { case_id := p.2.case_id, viewport := p.2.viewport,
                diff_pct := p.2.diff_pct }

/-- `compare_reports(baseline, current, regression_budget)`. The iteration
order of the Python `set` union of taxonomy buckets is unspecified; the union
is modelled in first-appearance order. -/
def compare_reports (baseline current : Report) (regression_budget : ℚ) :
    CompareResult :=
  let baseline_cases := toCaseDict baseline.cases
  let current_cases := toCaseDict current.cases
  let regressions := current_cases.filterMap (regCheck baseline_cases regression_budget)
  let improvements := current_cases.filterMap (impCheck baseline_cases regression_budget)
  let new_failures := current_cases.filterMap (nfCheck baseline_cases)
  let buckets :=
    ((baseline.taxonomy_buckets.map Prod.fst) ++
      (current.taxonomy_buckets.map Prod.fst)).dedup
  let taxonomy_shifts := buckets.filterMap (fun b =>
    let base_pct := (taxDict baseline.taxonomy_buckets b).getD 0
    let cur_pct := (taxDict current.taxonomy_buckets b).getD 0
    if 5 < |cur_pct - base_pct| then
      some { bucket := b, baseline_pct := base_pct, current_pct := cur_pct,
             delta := cur_pct - base_pct }
    else none)
  let total_regression := (regressions.map (fun r => r.delta)).sum
  let total_improvement := (improvements.map (fun i => |i.delta|)).sum
  { regression_budget := regression_budget
    summary :=
      { regressions := regressions.length
        improvements := improvements.length
        new_failures := new_failures.length
        total_regression_delta := total_regression
        total_improvement_delta := total_improvement
        net_delta := total_regression - total_improvement
        pass := decide (regressions.length = 0) && decide (new_failures.length = 0) }
    regressions := List.insertionSort regSortRel regressions
    improvements := List.insertionSort impSortRel improvements
    new_failures := new_failures
    taxonomy_shifts := List.insertionSort taxSortRel taxonomy_shifts }

/-! ### Decimal representation (`Nat.repr`, backing `f"iter-{iteration}"`) -/

/-- Decimal digits of `n`, most significant first (the list `Nat.toDigits 10`
produces). -/
def digitsAux (n : ℕ) : List Char :=
  if _h : n < 10 then [Nat.digitChar n]
  else digitsAux (n / 10) ++ [Nat.digitChar (n % 10)]
decreasing_by exact Nat.div_lt_self (by omega) (by omega)

/-- Value recovered from a decimal digit string. -/
def digitsVal (l : List Char) : ℕ :=
  l.foldl (fun acc c => 10 * acc + (c.toNat - 48)) 0

/-! ### Concrete fixtures for scenario statements -/

/-- A work unit at sequence position `i` of the sharding scenario. -/
def mkTen (i : ℕ) : WorkUnit :=
  ⟨"alpha", "p.html", 800, 600, "websuite", "800x600", i⟩

/-- Ten work units, unit `i` at position `i` (§8 sharding scenario). -/
def unitsTen : List WorkUnit := (List.range 10).map mkTen

/-- Baseline report of the regression scenario: case `alpha` at diff 10. -/
def demoBaselineReport : Report := ⟨[⟨"alpha", "800x600", 10, true⟩], []⟩

/-- Current report with diff 10.3 (within budget 0.5). -/
def demoCurrentOk : Report := ⟨[⟨"alpha", "800x600", 103/10, true⟩], []⟩

/-- Current report with diff 10.6 (beyond budget 0.5). -/
def demoCurrentBad : Report := ⟨[⟨"alpha", "800x600", 53/5, true⟩], []⟩

/-- An errored iteration result. -/
def errDemo : CaseResult :=
  { case_id := "beta"
    case_type := "micro"
    viewport := "800x600"
    iteration := 1
    width := 800
    height := 600
    error := some "Capture failed: boom" }

/-- The aggregate `aggregate_iterations` produces for the all-errored group
`[errDemo]`: worst-case defaults, the error retained. -/
def errAgg : AggregatedResult :=
  { case_id := "beta"
    case_type := "micro"
    viewport := "800x600"
    width := 800
    height := 600
    threshold := 15
    iterations := 1
    errors := ["Capture failed: boom"] }

/-- An all-white 1x2 binary PPM frame. -/
def whiteFrame : FrameInput :=
  FrameInput.file "P6" 1 2 255 [255, 255, 255, 255, 255, 255]

/-- An execution environment with no Chrome baseline present. -/
def demoEnvNoBaseline : ExecEnv :=
  { baseline_exists := false
    capture := { success := false }
    frame := FrameInput.missing
    pixel := {} }

/-- A work unit for concrete execution statements. -/
def demoUnit : WorkUnit := ⟨"alpha", "p.html", 800, 600, "websuite", "800x600", 1⟩

/-- A concrete results root. -/
def demoRoot : PathC := pathSegs "parity-results"

/-! ## Theorems

### Fold bounds for Python `min`/`max` -/

theorem foldl_min_mem {α : Type} [LinearOrder α] (xs : List α) :
    ∀ a : α, xs.foldl min a ∈ a :: xs := by
  induction xs with
  | nil => intro a; simp
  | cons x xs ih =>
    intro a
    have h := ih (min a x)
    simp only [List.foldl_cons]
    rcases List.mem_cons.mp h with h1 | h1
    · rcases min_choice a x with hc | hc
      · rw [h1, hc]; exact List.mem_cons_self _ _
      · rw [h1, hc]; exact List.mem_cons_of_mem _ (List.mem_cons_self _ _)
    · exact List.mem_cons_of_mem _ (List.mem_cons_of_mem _ h1)

theorem foldl_min_le {α : Type} [LinearOrder α] (xs : List α) :
    ∀ a y : α, y ∈ a :: xs → xs.foldl min a ≤ y := by
  induction xs with
  | nil =>
    intro a y hy
    rcases List.mem_cons.mp hy with h | h
    · simp [h]
    · cases h
  | cons x xs ih =>
    intro a y hy
    simp only [List.foldl_cons]
    rcases List.mem_cons.mp hy with h1 | h1
    · rw [h1]
      exact le_trans (ih (min a x) _ (List.mem_cons_self _ _)) (min_le_left _ _)
    · rcases List.mem_cons.mp h1 with h2 | h2
      · rw [h2]
        exact le_trans (ih (min a x) _ (List.mem_cons_self _ _)) (min_le_right _ _)
      · exact ih _ _ (List.mem_cons_of_mem _ h2)

theorem foldl_max_mem {α : Type} [LinearOrder α] (xs : List α) :
    ∀ a : α, xs.foldl max a ∈ a :: xs := by
  induction xs with
  | nil => intro a; simp
  | cons x xs ih =>
    intro a
    have h := ih (max a x)
    simp only [List.foldl_cons]
    rcases List.mem_cons.mp h with h1 | h1
    · rcases max_choice a x with hc | hc
      · rw [h1, hc]; exact List.mem_cons_self _ _
      · rw [h1, hc]; exact List.mem_cons_of_mem _ (List.mem_cons_self _ _)
    · exact List.mem_cons_of_mem _ (List.mem_cons_of_mem _ h1)

theorem foldl_max_ge {α : Type} [LinearOrder α] (xs : List α) :
    ∀ a y : α, y ∈ a :: xs → y ≤ xs.foldl max a := by
  induction xs with
  | nil =>
    intro a y hy
    rcases List.mem_cons.mp hy with h | h
    · simp [h]
    · cases h
  | cons x xs ih =>
    intro a y hy
    simp only [List.foldl_cons]
    rcases List.mem_cons.mp hy with h1 | h1
    · rw [h1]
      exact le_trans (le_max_left _ _) (ih (max a x) _ (List.mem_cons_self _ _))
    · rcases List.mem_cons.mp h1 with h2 | h2
      · rw [h2]
        exact le_trans (le_max_right _ _) (ih (max a x) _ (List.mem_cons_self _ _))
      · exact ih _ _ (List.mem_cons_of_mem _ h2)

theorem pyMin_mem {l : List ℚ} (h : l ≠ []) : pyMin l ∈ l := by
  cases l with
  | nil => exact absurd rfl h
  | cons x xs => exact foldl_min_mem xs x

theorem pyMin_le {l : List ℚ} : ∀ y ∈ l, pyMin l ≤ y := by
  cases l with
  | nil => intro y hy; cases hy
  | cons x xs => intro y hy; exact foldl_min_le xs x y hy

theorem pyMax_mem {l : List ℚ} (h : l ≠ []) : pyMax l ∈ l := by
  cases l with
  | nil => exact absurd rfl h
  | cons x xs => exact foldl_max_mem xs x

theorem pyMax_ge {l : List ℚ} : ∀ y ∈ l, y ≤ pyMax l := by
  cases l with
  | nil => intro y hy; cases hy
  | cons x xs => intro y hy; exact foldl_max_ge xs x y hy

/-! ### C3: aggregation statistics -/

/-- C3: for every list of `CaseResult`s containing at least one result without
an error (hence non-empty), `aggregate_iterations` succeeds and returns an
aggregate whose `diff_pct_median` is the statistical median of the scored
diffs, whose `diff_pct_min`/`diff_pct_max` are their minimum and maximum,
whose `diff_pct_variance` is `max - min`, and which is `stable` exactly when
there are at least 3 scored diffs and the variance is at most `max_variance`. -/
theorem aggregate_iterations_stats (results : List CaseResult) (mv : ℚ)
    (h : ∃ r ∈ results, isTruthy r.error = false) :
    ∃ agg, aggregate_iterations results mv = Except.ok agg ∧
      agg.diff_pct_median = pyMedian (scoredDiffs results) ∧
      agg.diff_pct_min ∈ scoredDiffs results ∧
      (∀ x ∈ scoredDiffs results, agg.diff_pct_min ≤ x) ∧
      agg.diff_pct_max ∈ scoredDiffs results ∧
      (∀ x ∈ scoredDiffs results, x ≤ agg.diff_pct_max) ∧
      agg.diff_pct_variance = agg.diff_pct_max - agg.diff_pct_min ∧
      (agg.stable = true ↔
        3 ≤ (scoredDiffs results).length ∧ agg.diff_pct_variance ≤ mv) := by
  obtain ⟨r, hr, hre⟩ := h
  have hmemr : r ∈ scoredResults results :=
    List.mem_filter.mpr ⟨hr, by simp [hre]⟩
  have hmem : r.diff_pct ∈ scoredDiffs results :=
    List.mem_map_of_mem _ hmemr
  have hne : scoredDiffs results ≠ [] := by
    intro hn; rw [hn] at hmem; cases hmem
  cases results with
  | nil => cases hr
  | cons first rest =>
    have hie : (scoredDiffs (first :: rest)).isEmpty = false := by
      cases hsd : scoredDiffs (first :: rest) with
      | nil => exact absurd hsd hne
      | cons a l => rfl
    unfold aggregate_iterations
    simp only [hie, Bool.false_eq_true, if_false]
    cases hb : bestOf (scoredResults (first :: rest)) with
    | none =>
      refine ⟨_, rfl, rfl, pyMin_mem hne, fun x hx => pyMin_le x hx,
        pyMax_mem hne, fun x hx => pyMax_ge x hx, rfl, ?_⟩
      simp [Bool.and_eq_true, decide_eq_true_iff]
    | some b =>
      refine ⟨_, rfl, rfl, pyMin_mem hne, fun x hx => pyMin_le x hx,
        pyMax_mem hne, fun x hx => pyMax_ge x hx, rfl, ?_⟩
      simp [Bool.and_eq_true, decide_eq_true_iff]

/-- Witness for C3 at the concrete scenario group. -/
theorem aggregate_iterations_stats_witness :
    (∃ r ∈ demoGroup, isTruthy r.error = false) ∧
    (∃ agg, aggregate_iterations demoGroup (1/10) = Except.ok agg ∧
      agg.diff_pct_median = pyMedian (scoredDiffs demoGroup) ∧
      agg.diff_pct_min ∈ scoredDiffs demoGroup ∧
      (∀ x ∈ scoredDiffs demoGroup, agg.diff_pct_min ≤ x) ∧
      agg.diff_pct_max ∈ scoredDiffs demoGroup ∧
      (∀ x ∈ scoredDiffs demoGroup, x ≤ agg.diff_pct_max) ∧
      agg.diff_pct_variance = agg.diff_pct_max - agg.diff_pct_min ∧
      (agg.stable = true ↔
        3 ≤ (scoredDiffs demoGroup).length ∧ agg.diff_pct_variance ≤ 1/10)) :=
  ⟨by decide, aggregate_iterations_stats demoGroup (1/10) (by decide)⟩

/-! ### C8: error handling in aggregation -/

/-- C8: an all-errored non-empty group still aggregates, defaulting to the
worst case (`median = 100`, `passed = false`, `stable = false`); and on every
successful aggregation, every retained error string appears in `errors`
(exactly the errored results' strings, in order) while the statistic is a
function of the scored diffs only. -/
theorem aggregate_iterations_error_handling :
    (∀ (results : List CaseResult) (mv : ℚ), results ≠ [] →
        (∀ r ∈ results, isTruthy r.error = true) →
        ∃ agg, aggregate_iterations results mv = Except.ok agg ∧
          agg.diff_pct_median = 100 ∧ agg.passed = false ∧ agg.stable = false) ∧
    (∀ (results : List CaseResult) (mv : ℚ) (agg : AggregatedResult),
        aggregate_iterations results mv = Except.ok agg →
        agg.errors = errStrings results ∧
        agg.iteration_diffs = scoredDiffs results ∧
        agg.diff_pct_median =
          (if scoredDiffs results = [] then 100 else pyMedian (scoredDiffs results)) ∧
        agg.diff_pct_min =
          (if scoredDiffs results = [] then 100 else pyMin (scoredDiffs results)) ∧
        agg.diff_pct_max =
          (if scoredDiffs results = [] then 100 else pyMax (scoredDiffs results))) := by
  constructor
  · intro results mv hne hall
    have hsd : scoredDiffs results = [] := by
      have : scoredResults results = [] := by
        apply List.filter_eq_nil_iff.mpr
        intro r hrr
        simp [hall r hrr]
      simp [scoredDiffs, this]
    cases results with
    | nil => exact absurd rfl hne
    | cons first rest =>
      have hie : (scoredDiffs (first :: rest)).isEmpty = true := by
        rw [hsd]; rfl
      unfold aggregate_iterations
      simp only [hie, if_true]
      exact ⟨_, rfl, rfl, rfl, rfl⟩
  · intro results mv agg hok
    cases results with
    | nil => cases hok
    | cons first rest =>
      by_cases hsd : scoredDiffs (first :: rest) = []
      · have hie : (scoredDiffs (first :: rest)).isEmpty = true := by rw [hsd]; rfl
        unfold aggregate_iterations at hok
        simp only [hie, if_true, Except.ok.injEq] at hok
        subst hok
        refine ⟨rfl, rfl, ?_, ?_, ?_⟩ <;> rw [if_pos hsd]
      · have hie : (scoredDiffs (first :: rest)).isEmpty = false := by
          cases hcc : scoredDiffs (first :: rest) with
          | nil => exact absurd hcc hsd
          | cons a l => rfl
        unfold aggregate_iterations at hok
        simp only [hie, Bool.false_eq_true, if_false] at hok
        cases hb : bestOf (scoredResults (first :: rest)) with
        | none =>
          rw [hb] at hok
          simp only [Except.ok.injEq] at hok
          subst hok
          refine ⟨rfl, rfl, ?_, ?_, ?_⟩ <;> rw [if_neg hsd]
        | some b =>
          rw [hb] at hok
          simp only [Except.ok.injEq] at hok
          subst hok
          refine ⟨rfl, rfl, ?_, ?_, ?_⟩ <;> rw [if_neg hsd]

/-- Witness for C8 at a concrete all-errored group. -/
theorem aggregate_iterations_error_handling_witness :
    (([errDemo] : List CaseResult) ≠ [] ∧
      (∀ r ∈ ([errDemo] : List CaseResult), isTruthy r.error = true) ∧
      ∃ agg, aggregate_iterations [errDemo] (1/10) = Except.ok agg ∧
        agg.diff_pct_median = 100 ∧ agg.passed = false ∧ agg.stable = false) ∧
    (aggregate_iterations [errDemo] (1/10) = Except.ok errAgg ∧
      errAgg.errors = errStrings [errDemo] ∧
      errAgg.iteration_diffs = scoredDiffs [errDemo]) := by
  have heq : aggregate_iterations [errDemo] (1/10) = Except.ok errAgg := rfl
  refine ⟨⟨by decide, by decide,
    aggregate_iterations_error_handling.1 [errDemo] (1/10) (by decide) (by decide)⟩,
    heq, ?_, ?_⟩
  · exact (aggregate_iterations_error_handling.2 [errDemo] (1/10) errAgg heq).1
  · exact (aggregate_iterations_error_handling.2 [errDemo] (1/10) errAgg heq).2.1

/-! ### C9: the fixed aggregation scenario -/

/-- C9 counterexample: at the scenario input (case `alpha`, three iterations
with diffs `[4.0, 4.5, 5.0]`, threshold 15) and the default variance ceiling
`max_variance = 0.10`, the aggregate is NOT stable, contradicting the claimed
`stable = true`. -/
theorem scenario_alpha_not_stable :
    aggField (fun a => a.stable) (aggregate_iterations demoGroup (1/10)) =
      some false := by
  with_unfolding_all decide

/-- C9 amended: the scenario aggregate has median 4.5, variance-proxy 1.0 and
`passed = true`, but `stable = false` under the default ceiling 0.10 (stability
would require a ceiling of at least 1.0). -/
theorem scenario_alpha_aggregate :
    aggField (fun a => (a.diff_pct_median, a.diff_pct_variance, a.stable, a.passed))
        (aggregate_iterations demoGroup (1/10)) = some (9/2, 1, false, true) := by
  with_unfolding_all decide

/-! ### C4: modulo sharding -/

/-- C4: with `shard_count = N ≥ 1`, the unit at sequence position `i` lands in
shard `i % N`; the enumerated shards are pairwise disjoint; and reassembling
all `N` shards reproduces exactly the original unit list (as a permutation —
round-robin interleaving, no loss, no duplication). -/
theorem shard_work_units_partition (units : List WorkUnit) (N : ℕ) (hN : 1 ≤ N) :
    (∀ i (h : i < units.length),
        units.get ⟨i, h⟩ ∈ shard_work_units units (i % N) N) ∧
    (∀ j k, j ≠ k → ∀ p ∈ enumFilter units N j, p ∉ enumFilter units N k) ∧
    ((List.range N).flatMap (fun j => shard_work_units units j N)).Perm units := by
  have hdisj : ∀ j k, j ≠ k → ∀ p ∈ enumFilter units N j, p ∉ enumFilter units N k := by
    intro j k hjk p hpj hpk
    have h1 := of_decide_eq_true (List.mem_filter.mp hpj).2
    have h2 := of_decide_eq_true (List.mem_filter.mp hpk).2
    exact hjk (h1.symm.trans h2)
  refine ⟨?_, hdisj, ?_⟩
  · intro i h
    unfold shard_work_units
    refine List.mem_map.mpr ⟨(i, units.get ⟨i, h⟩), ?_, rfl⟩
    apply List.mem_filter.mpr
    refine ⟨?_, by simp⟩
    apply List.mem_enum_iff_getElem?.mpr
    exact List.getElem?_eq_getElem h
  · have henod : units.enum.Nodup := (List.nodup_enum_map_fst units).of_map _
    have hmap : ((List.range N).flatMap (fun j => shard_work_units units j N)) =
        ((List.range N).flatMap (fun j => enumFilter units N j)).map Prod.snd := by
      rw [List.map_flatMap]
      rfl
    have hperm :
        ((List.range N).flatMap (fun j => enumFilter units N j)).Perm units.enum := by
      rw [List.perm_ext_iff_of_nodup ?_ henod]
      · intro p
        constructor
        · intro hp
          obtain ⟨j, _, hpj⟩ := List.mem_flatMap.mp hp
          exact (List.mem_filter.mp hpj).1
        · intro hp
          apply List.mem_flatMap.mpr
          refine ⟨p.1 % N, List.mem_range.mpr (Nat.mod_lt _ (by omega)), ?_⟩
          exact List.mem_filter.mpr ⟨hp, by simp⟩
      · apply List.nodup_flatMap.mpr
        constructor
        · intro j _
          exact henod.filter _
        · apply (List.pairwise_lt_range N).imp
          intro j k hlt
          intro p hpj hpk
          exact hdisj j k (Nat.ne_of_lt hlt) p hpj hpk
    rw [hmap]
    have h2 : units.enum.map Prod.snd = units := List.enumFrom_map_snd 0 units
    have h3 := hperm.map Prod.snd
    rw [h2] at h3
    exact h3

/-- Witness for C4: the §8 scenario — 10 units, 4 shards; shard 0 holds
positions 0, 4, 8 and shard 3 holds positions 3, 7; the unit at position 3
lands in shard `3 % 4`; reassembling the shards recovers all 10 units. -/
theorem shard_work_units_partition_witness :
    1 ≤ 4 ∧
    shard_work_units unitsTen 0 4 = [mkTen 0, mkTen 4, mkTen 8] ∧
    shard_work_units unitsTen 3 4 = [mkTen 3, mkTen 7] ∧
    mkTen 3 ∈ shard_work_units unitsTen (3 % 4) 4 ∧
    ((List.range 4).flatMap (fun j => shard_work_units unitsTen j 4)).Perm unitsTen := by
  have h := shard_work_units_partition unitsTen 4 (by decide)
  refine ⟨by decide, by decide, by decide, ?_, h.2.2⟩
  have h3 : unitsTen.get ⟨3, by decide⟩ = mkTen 3 := by decide
  have := h.1 3 (by decide)
  rwa [h3] at this

/-! ### C10: empty aggregation group -/

/-- C10: `aggregate_iterations` on an empty group raises `ValueError`
("No results to aggregate") instead of returning an aggregate. -/
theorem aggregate_iterations_empty (mv : ℚ) :
    aggregate_iterations [] mv = Except.error "No results to aggregate" := rfl

/-- Witness for C10 at the default variance ceiling. -/
theorem aggregate_iterations_empty_witness :
    aggregate_iterations [] (1/10) = Except.error "No results to aggregate" :=
  aggregate_iterations_empty (1/10)

/-! ### C1: blank-frame dominance in `execute_work_unit` -/

/-- C1: whenever `execute_work_unit` returns a result with
`is_blank_frame = true` — on the missing-baseline path, the capture-failure
path, or the blank-analysis path — the result has `passed = false` and
`diff_pct = 100`, regardless of any diff data. -/
theorem execute_work_unit_blank_dominance (wu : WorkUnit) (run_id : String)
    (env : ExecEnv) (root : PathC)
    (h : (execute_work_unit wu run_id env root).is_blank_frame = true) :
    (execute_work_unit wu run_id env root).passed = false ∧
    (execute_work_unit wu run_id env root).diff_pct = 100 := by
  simp only [execute_work_unit] at h ⊢
  split_ifs at h ⊢ <;>
    first
      | exact ⟨rfl, rfl⟩
      | exact absurd h (by assumption)

/-- Witness for C1 on an environment with no Chrome baseline. -/
theorem execute_work_unit_blank_dominance_witness :
    (execute_work_unit demoUnit "run" demoEnvNoBaseline demoRoot).is_blank_frame = true ∧
    (execute_work_unit demoUnit "run" demoEnvNoBaseline demoRoot).passed = false ∧
    (execute_work_unit demoUnit "run" demoEnvNoBaseline demoRoot).diff_pct = 100 := by
  have h : (execute_work_unit demoUnit "run" demoEnvNoBaseline demoRoot).is_blank_frame
      = true := by decide
  have h2 := execute_work_unit_blank_dominance demoUnit "run" demoEnvNoBaseline demoRoot h
  exact ⟨h, h2.1, h2.2⟩

/-! ### C7: the blank-frame rule -/

theorem maxColorCount_ge (total : ℕ) (bytes : List ℕ) (c : ℕ × ℕ × ℕ)
    (hc : c ∈ pixelsOf total bytes) :
    (pixelsOf total bytes).count c ≤ maxColorCount total bytes := by
  unfold maxColorCount
  apply foldl_max_ge
  exact List.mem_cons_of_mem _
    (List.mem_map_of_mem _ (List.mem_dedup.mpr hc))

theorem maxColorCount_attained (total : ℕ) (bytes : List ℕ)
    (h : pixelsOf total bytes ≠ []) :
    ∃ c ∈ pixelsOf total bytes,
      (pixelsOf total bytes).count c = maxColorCount total bytes := by
  have hmem := foldl_max_mem
    ((pixelsOf total bytes).dedup.map (fun c => (pixelsOf total bytes).count c)) 0
  rcases List.mem_cons.mp hmem with h0 | hin
  · obtain ⟨c, hc⟩ := List.exists_mem_of_ne_nil _ h
    have h1 : 0 < (pixelsOf total bytes).count c := List.count_pos_iff.mpr hc
    have h2 := maxColorCount_ge total bytes c hc
    unfold maxColorCount at h2
    omega
  · obtain ⟨c, hcd, hcc⟩ := List.mem_map.mp hin
    exact ⟨c, List.mem_dedup.mp hcd, hcc⟩

theorem uniqueColors_pos_of_mem {total : ℕ} {bytes : List ℕ} {c : ℕ × ℕ × ℕ}
    (hc : c ∈ pixelsOf total bytes) : 0 < uniqueColors total bytes := by
  unfold uniqueColors
  exact List.length_pos.mpr (List.ne_nil_of_mem (List.mem_dedup.mpr hc))

theorem pixelsOf_ne_nil_of_uniquePos {total : ℕ} {bytes : List ℕ}
    (h : 0 < uniqueColors total bytes) : pixelsOf total bytes ≠ [] := by
  intro hnil
  unfold uniqueColors at h
  rw [hnil] at h
  cases h

/-- C7: for a readable frame (recognized header, nonzero declared pixel
count), `is_blank = true` holds exactly when the background ratio reaches the
0.999 threshold, or fewer than 10 distinct colors exist and the most frequent
one covers at least 0.999 of the pixels; and every unreadable frame (missing
file, unknown PPM format, zero-pixel frame, or a parse failure) is always
reported blank. -/
theorem analyze_frame_blankness_rule :
    (∀ (header : String) (w h maxVal : ℕ) (bytes : List ℕ) (bg : ℕ × ℕ × ℕ),
        header = "P6" ∨ header = "P3" → 0 < w * h →
        ((analyze_frame_blankness (FrameInput.file header w h maxVal bytes) bg).is_blank
            = true ↔ blankPerSpec bg w h bytes)) ∧
    (∀ (inp : FrameInput) (bg : ℕ × ℕ × ℕ),
        unreadableInput inp → (analyze_frame_blankness inp bg).is_blank = true) := by
  constructor
  · intro header w h mv bytes bg hh hwh
    have hc1 : ¬(header ≠ "P6" ∧ header ≠ "P3") := by
      rcases hh with h1 | h1 <;> simp [h1]
    have hc2 : ¬(w * h = 0) := by omega
    unfold analyze_frame_blankness
    dsimp only
    rw [if_neg hc1, if_neg hc2]
    dsimp only
    by_cases hr : BLANK_FRAME_THRESHOLD ≤ bgRatio bg (w * h) bytes
    · have hb0 : decide (BLANK_FRAME_THRESHOLD ≤ bgRatio bg (w * h) bytes) = true :=
        decide_eq_true hr
      simp only [hb0]
      rw [if_neg (fun hx => by simpa using hx.2.2)]
      simp only [true_iff]
      exact Or.inl hr
    · have hb0 : decide (BLANK_FRAME_THRESHOLD ≤ bgRatio bg (w * h) bytes) = false :=
        decide_eq_false hr
      simp only [hb0]
      by_cases hu : uniqueColors (w * h) bytes < 10 ∧ 0 < uniqueColors (w * h) bytes
      · rw [if_pos (by exact ⟨hu.1, hu.2, by simp⟩)]
        by_cases hd : BLANK_FRAME_THRESHOLD ≤ dominantRatio (w * h) bytes
        · rw [if_pos hd]
          simp only [true_iff]
          obtain ⟨c, hc, hcc⟩ :=
            maxColorCount_attained (w * h) bytes (pixelsOf_ne_nil_of_uniquePos hu.2)
          refine Or.inr ⟨hu.1, c, hc, ?_⟩
          unfold dominantRatio at hd
          rw [hcc]
          exact hd
        · rw [if_neg hd]
          simp only [Bool.false_eq_true, false_iff]
          intro hspec
          rcases hspec with hspec | ⟨_, c, hc, hcc⟩
          · exact hr hspec
          · apply hd
            unfold dominantRatio
            refine le_trans hcc ?_
            have hcast : ((pixelsOf (w * h) bytes).count c : ℚ) ≤
                (maxColorCount (w * h) bytes : ℚ) :=
              Nat.cast_le.mpr (maxColorCount_ge (w * h) bytes c hc)
            have hm : (0 : ℚ) < ((max 1 (actualPixels bytes) : ℕ) : ℚ) := by
              have : (1 : ℕ) ≤ max 1 (actualPixels bytes) := le_max_left _ _
              exact_mod_cast lt_of_lt_of_le Nat.zero_lt_one (by exact_mod_cast this)
            exact div_le_div_of_nonneg_right hcast hm.le
      · rw [if_neg (fun hx => hu ⟨hx.1, hx.2.1⟩)]
        simp only [Bool.false_eq_true, false_iff]
        intro hspec
        rcases hspec with hspec | ⟨hlt, c, hc, _⟩
        · exact hr hspec
        · exact hu ⟨hlt, uniqueColors_pos_of_mem hc⟩
  · intro inp bg hin
    cases inp with
    | missing => rfl
    | parseError msg => rfl
    | file header w h mv bytes =>
      unfold analyze_frame_blankness
      dsimp only
      rcases hin with hbad | hzero
      · rw [if_pos hbad]
      · by_cases hbad : header ≠ "P6" ∧ header ≠ "P3"
        · rw [if_pos hbad]
        · rw [if_neg hbad, if_pos hzero]

/-- Witness for C7: an all-white 1x2 binary PPM frame is blank (background
ratio 1 ≥ 0.999), and a missing frame file is blank. -/
theorem analyze_frame_blankness_rule_witness :
    (("P6" : String) = "P6" ∨ ("P6" : String) = "P3") ∧ 0 < 1 * 2 ∧
    blankPerSpec (255, 255, 255) 1 2 [255, 255, 255, 255, 255, 255] ∧
    (analyze_frame_blankness whiteFrame (255, 255, 255)).is_blank = true ∧
    unreadableInput FrameInput.missing ∧
    (analyze_frame_blankness FrameInput.missing (255, 255, 255)).is_blank = true := by
  have hspec : blankPerSpec (255, 255, 255) 1 2 [255, 255, 255, 255, 255, 255] :=
    Or.inl (by with_unfolding_all decide)
  refine ⟨Or.inl rfl, by decide, hspec, ?_, trivial, ?_⟩
  · exact (analyze_frame_blankness_rule.1 "P6" 1 2 255
      [255, 255, 255, 255, 255, 255] (255, 255, 255) (Or.inl rfl) (by decide)).mpr hspec
  · exact analyze_frame_blankness_rule.2 FrameInput.missing (255, 255, 255) trivial

/-! ### C6: artifact-path disjointness -/

theorem digitChar_toNat (d : ℕ) (hd : d < 10) : (Nat.digitChar d).toNat - 48 = d := by
  interval_cases d <;> decide

theorem digitChar_ne_slash (d : ℕ) (hd : d < 10) : Nat.digitChar d ≠ '/' := by
  interval_cases d <;> decide

theorem digitsVal_append (l : List Char) (c : Char) :
    digitsVal (l ++ [c]) = 10 * digitsVal l + (c.toNat - 48) := by
  unfold digitsVal
  rw [List.foldl_append]
  rfl

theorem digitsVal_digitsAux (n : ℕ) : digitsVal (digitsAux n) = n := by
  induction n using Nat.strong_induction_on with
  | _ n ih =>
    rw [digitsAux]
    split
    · rename_i hd
      have h1 := digitChar_toNat n hd
      unfold digitsVal
      simp only [List.foldl_cons, List.foldl_nil]
      omega
    · rename_i hd
      rw [digitsVal_append]
      rw [ih (n / 10) (Nat.div_lt_self (by omega) (by omega))]
      rw [digitChar_toNat (n % 10) (Nat.mod_lt _ (by omega))]
      omega

theorem digitsAux_injective {m n : ℕ} (h : digitsAux m = digitsAux n) : m = n := by
  have h2 := congrArg digitsVal h
  rwa [digitsVal_digitsAux, digitsVal_digitsAux] at h2

theorem digitsAux_no_slash (n : ℕ) : '/' ∉ digitsAux n := by
  induction n using Nat.strong_induction_on with
  | _ n ih =>
    rw [digitsAux]
    split
    · rename_i hd
      intro hmem
      exact digitChar_ne_slash n hd (List.mem_singleton.mp hmem).symm
    · rename_i hd
      intro hmem
      rcases List.mem_append.mp hmem with h1 | h1
      · exact ih (n / 10) (Nat.div_lt_self (by omega) (by omega)) h1
      · exact digitChar_ne_slash _ (Nat.mod_lt _ (by omega)) (List.mem_singleton.mp h1).symm

theorem toDigitsCore_eq_digitsAux :
    ∀ (fuel n : ℕ) (ds : List Char), n < fuel →
      Nat.toDigitsCore 10 fuel n ds = digitsAux n ++ ds := by
  intro fuel
  induction fuel with
  | zero => intro n ds h; omega
  | succ fuel ih =>
    intro n ds h
    show (if n / 10 = 0 then Nat.digitChar (n % 10) :: ds
      else Nat.toDigitsCore 10 fuel (n / 10) (Nat.digitChar (n % 10) :: ds)) =
        digitsAux n ++ ds
    by_cases h0 : n / 10 = 0
    · rw [if_pos h0]
      have hn : n < 10 := by omega
      rw [digitsAux, dif_pos hn]
      have hm : n % 10 = n := Nat.mod_eq_of_lt hn
      rw [hm]
      rfl
    · rw [if_neg h0]
      have h1 : n / 10 < fuel := by omega
      rw [ih (n / 10) (Nat.digitChar (n % 10) :: ds) h1]
      have hn10 : ¬n < 10 := by omega
      conv_rhs => rw [digitsAux]
      rw [dif_neg hn10]
      simp [List.append_assoc]

theorem repr_toList (n : ℕ) : (Nat.repr n).toList = digitsAux n := by
  unfold Nat.repr Nat.toDigits
  rw [toDigitsCore_eq_digitsAux (n + 1) n [] (by omega)]
  rw [List.append_nil]
  exact List.toList_asString _

theorem repr_injective {m n : ℕ} (h : Nat.repr m = Nat.repr n) : m = n := by
  apply digitsAux_injective
  rw [← repr_toList, ← repr_toList, h]

theorem splitSeg_no_slash : ∀ l : List Char, '/' ∉ l → splitSeg l = [l] := by
  intro l
  induction l with
  | nil => intro _; rfl
  | cons c rest ih =>
    intro h
    have hc : c ≠ '/' := fun hh => h (hh ▸ List.mem_cons_self _ _)
    have hr : '/' ∉ rest := fun hh => h (List.mem_cons_of_mem _ hh)
    unfold splitSeg
    rw [ih hr]
    simp [hc]

theorem pathSegs_single (s : String) (h1 : s ≠ "") (h2 : '/' ∉ s.toList) :
    pathSegs s = [s.toList] := by
  unfold pathSegs
  rw [splitSeg_no_slash _ h2]
  have hnn : s.toList ≠ [] := by
    intro hh
    apply h1
    have h3 := congrArg List.asString hh
    rwa [String.asString_toList] at h3
  cases hl : s.toList with
  | nil => exact absurd hl hnn
  | cons a l => rfl

theorem pathSegs_iter (n : ℕ) :
    pathSegs ("iter-" ++ Nat.repr n) = [("iter-").toList ++ digitsAux n] := by
  have hl : ("iter-" ++ Nat.repr n).toList = ("iter-").toList ++ digitsAux n := by
    rw [← repr_toList]
    exact String.data_append _ _
  have hne : ("iter-" ++ Nat.repr n) ≠ "" := by
    intro hh
    have h2 := congrArg String.toList hh
    rw [hl] at h2
    simp at h2
  have hns : '/' ∉ ("iter-" ++ Nat.repr n).toList := by
    rw [hl]
    intro hmem
    rcases List.mem_append.mp hmem with h1 | h1
    · revert h1; decide
    · exact digitsAux_no_slash n h1
  rw [pathSegs_single _ hne hns, hl]

theorem get_artifact_paths_base_eq (root : PathC) (rid : String)
    (c v : String) (i : ℕ) (hc : wellFormedSeg c) (hv : wellFormedSeg v) :
    (get_artifact_paths rid c v i root).base =
      (root ++ pathSegs rid) ++
        [c.toList, v.toList, ("iter-").toList ++ digitsAux i] := by
  unfold get_artifact_paths pathJoin
  dsimp only
  rw [pathSegs_single c hc.1 hc.2, pathSegs_single v hv.1 hv.2, pathSegs_iter]
  simp [List.append_assoc]

/-- C6 amended: for well-formed case ids and viewport names (non-empty, no
path separator — true of every real case and viewport), any two distinct
`(case_id, viewport, iteration)` triples of the same run resolve to disjoint
artifact trees: no artifact path of one unit extends the other unit's base
directory. The location is a pure function of its arguments by construction. -/
theorem get_artifact_paths_disjoint (root : PathC) (rid : String)
    (c1 v1 : String) (i1 : ℕ) (c2 v2 : String) (i2 : ℕ)
    (hc1 : wellFormedSeg c1) (hv1 : wellFormedSeg v1)
    (hc2 : wellFormedSeg c2) (hv2 : wellFormedSeg v2)
    (hne : (c1, v1, i1) ≠ (c2, v2, i2)) :
    ∀ p ∈ artifactList (get_artifact_paths rid c2 v2 i2 root),
      ¬(get_artifact_paths rid c1 v1 i1 root).base <+: p := by
  have hb1 := get_artifact_paths_base_eq root rid c1 v1 i1 hc1 hv1
  have hb2 := get_artifact_paths_base_eq root rid c2 v2 i2 hc2 hv2
  have hbneq : (get_artifact_paths rid c1 v1 i1 root).base ≠
      (get_artifact_paths rid c2 v2 i2 root).base := by
    rw [hb1, hb2]
    intro hh
    have h3 := List.append_cancel_left hh
    simp only [List.cons.injEq, and_true] at h3
    obtain ⟨hcc, hvv, hii⟩ := h3
    apply hne
    have hc : c1 = c2 := String.toList_inj.mp hcc
    have hv : v1 = v2 := String.toList_inj.mp hvv
    have hi : i1 = i2 := digitsAux_injective (List.append_cancel_left hii)
    rw [hc, hv, hi]
  have hlen : (get_artifact_paths rid c1 v1 i1 root).base.length =
      (get_artifact_paths rid c2 v2 i2 root).base.length := by
    rw [hb1, hb2]
    simp
  intro p hp
  have hsuffix : ∃ t, p = (get_artifact_paths rid c2 v2 i2 root).base ++ t := by
    simp only [artifactList, List.mem_cons, List.not_mem_nil, or_false] at hp
    rcases hp with hp | hp | hp | hp | hp | hp | hp | hp | hp <;> rw [hp] <;>
      first
        | exact ⟨[], (List.append_nil _).symm⟩
        | exact ⟨_, rfl⟩
        | exact ⟨_, List.append_assoc _ _ _⟩
  obtain ⟨t, ht⟩ := hsuffix
  intro hpre
  obtain ⟨u, hu⟩ := hpre
  rw [ht] at hu
  exact hbneq (List.append_inj_left hu hlen)

/-- C6 counterexample: with `pathlib` semantics, the distinct triples
`("a/b", "c", 1)` and `("a", "b/c", 1)` resolve to the same base directory, so
their artifact paths are not disjoint: the claim fails for raw strings
containing the path separator. -/
theorem get_artifact_paths_counterexample :
    ((("a/b", "c", 1) : String × String × ℕ) ≠ ("a", "b/c", 1)) ∧
    (get_artifact_paths "r" "a/b" "c" 1 demoRoot).base =
      (get_artifact_paths "r" "a" "b/c" 1 demoRoot).base ∧
    (get_artifact_paths "r" "a/b" "c" 1 demoRoot).base <+:
      (get_artifact_paths "r" "a" "b/c" 1 demoRoot).frame_ppm := by
  refine ⟨by decide, by decide, ?_⟩
  exact ⟨pathSegs "capture" ++ pathSegs "frame.ppm", by decide⟩

/-- Witness for the C6 amended theorem at concrete well-formed inputs. -/
theorem get_artifact_paths_disjoint_witness :
    wellFormedSeg "about" ∧ wellFormedSeg "800x600" ∧
    wellFormedSeg "settings" ∧ wellFormedSeg "1280x800" ∧
    ((("about", "800x600", 1) : String × String × ℕ) ≠ ("settings", "1280x800", 2)) ∧
    (¬(get_artifact_paths "r" "about" "800x600" 1 demoRoot).base <+:
      (get_artifact_paths "r" "settings" "1280x800" 2 demoRoot).frame_ppm) := by
  have h1 : wellFormedSeg "about" := ⟨by decide, by decide⟩
  have h2 : wellFormedSeg "800x600" := ⟨by decide, by decide⟩
  have h3 : wellFormedSeg "settings" := ⟨by decide, by decide⟩
  have h4 : wellFormedSeg "1280x800" := ⟨by decide, by decide⟩
  refine ⟨h1, h2, h3, h4, by decide, ?_⟩
  apply get_artifact_paths_disjoint demoRoot "r" "about" "800x600" 1
    "settings" "1280x800" 2 h1 h2 h3 h4 (by decide)
  simp [artifactList]

/-! ### C5: generator ordering -/

theorem nodup_indexOf_pairwise {l : List String} (h : l.Nodup) :
    l.Pairwise (fun a b => l.indexOf a < l.indexOf b) := by
  induction l with
  | nil => exact List.Pairwise.nil
  | cons x xs ih =>
    obtain ⟨hx, hxs⟩ := List.pairwise_cons.mp h
    apply List.pairwise_cons.mpr
    constructor
    · intro b hb
      rw [List.indexOf_cons_self, List.indexOf_cons_ne _ (hx b hb)]
      exact Nat.succ_pos _
    · refine List.Pairwise.imp_of_mem ?_ (ih hxs)
      intro a b ha hb hab
      rw [List.indexOf_cons_ne _ (hx a ha), List.indexOf_cons_ne _ (hx b hb)]
      omega

theorem unitsForCase_case_id (vpl : List (ℕ × ℕ × String)) (it : ℕ) (c : CaseSpec) :
    ∀ u ∈ unitsForCase vpl it c, u.case_id = c.cid := by
  intro u hu
  unfold unitsForCase at hu
  split at hu
  · obtain ⟨k, _, rfl⟩ := List.mem_map.mp hu
    rfl
  · obtain ⟨vp, _, hu2⟩ := List.mem_flatMap.mp hu
    obtain ⟨k, _, rfl⟩ := List.mem_map.mp hu2
    rfl

theorem pairwise_map_inv {α β : Type} {R : β → β → Prop} {f : α → β} {l : List α}
    (h : (l.map f).Pairwise R) : l.Pairwise (fun a b => R (f a) (f b)) :=
  List.pairwise_map.mp h

theorem vpNameOrder_nodup (viewports : Option (List String)) :
    (vpNameOrder viewports).Nodup := by
  cases viewports with
  | none => exact List.Pairwise.nil
  | some vs =>
    unfold vpNameOrder usedViewports
    dsimp only
    split
    · exact List.Pairwise.nil
    · have hsub : List.Sublist
          ((VIEWPORTS.filter (fun t => vs.contains t.2.2)).map
            (fun t : ℕ × ℕ × String => t.2.2))
          (VIEWPORTS.map (fun t : ℕ × ℕ × String => t.2.2)) :=
        (List.filter_sublist _).map _
      exact (by decide : (VIEWPORTS.map (fun t : ℕ × ℕ × String => t.2.2)).Nodup).sublist
        hsub

theorem unitsForCase_pairwise (viewports : Option (List String)) (it : ℕ)
    (c : CaseSpec) :
    (unitsForCase (usedViewports viewports) it c).Pairwise
      (unitOrder (vpNameOrder viewports)) := by
  unfold unitsForCase
  split
  · rw [List.pairwise_map]
    apply (List.pairwise_lt_range it).imp
    intro k1 k2 hk
    exact Or.inr ⟨rfl, Or.inr ⟨rfl, show k1 + 1 ≤ k2 + 1 by omega⟩⟩
  · rw [List.pairwise_flatMap]
    constructor
    · intro vp _
      rw [List.pairwise_map]
      apply (List.pairwise_lt_range it).imp
      intro k1 k2 hk
      exact Or.inr ⟨rfl, Or.inr ⟨rfl, show k1 + 1 ≤ k2 + 1 by omega⟩⟩
    · have hidx := nodup_indexOf_pairwise (vpNameOrder_nodup viewports)
      have hvp : (usedViewports viewports).Pairwise (fun a b =>
          (vpNameOrder viewports).indexOf a.2.2 <
            (vpNameOrder viewports).indexOf b.2.2) :=
        @pairwise_map_inv (ℕ × ℕ × String) String
          (fun a b => (vpNameOrder viewports).indexOf a <
            (vpNameOrder viewports).indexOf b)
          (fun t => t.2.2) (usedViewports viewports) hidx
      refine hvp.imp ?_
      intro a b hab x hx y hy
      obtain ⟨k1, _, rfl⟩ := List.mem_map.mp hx
      obtain ⟨k2, _, rfl⟩ := List.mem_map.mp hy
      exact Or.inr ⟨rfl, Or.inl hab⟩

/-- C5 amended: whenever the effective case list has no duplicate case ids
(always true for scope selection; true for explicit case lists without
repeats), the generated unit list is sorted lexicographically by
`(case_id, viewport position in the configured viewport list, iteration)` —
the viewport component follows the configured `VIEWPORTS` order (or the native
viewport), not string comparison of viewport names. -/
theorem generate_work_units_sorted (scope : String) (cases : Option (List String))
    (viewports : Option (List String)) (iterations : ℕ)
    (hnd : ((effectiveCaseList scope cases).map (fun c => c.cid)).Nodup) :
    (generate_work_units scope cases viewports iterations).Pairwise
      (unitOrder (vpNameOrder viewports)) := by
  unfold generate_work_units
  rw [List.pairwise_flatMap]
  constructor
  · intro c _
    exact unitsForCase_pairwise viewports iterations c
  · have hsorted : (sortedCaseList scope cases).Pairwise caseLE :=
      List.sorted_insertionSort caseLE (effectiveCaseList scope cases)
    have hperm : (sortedCaseList scope cases).Perm (effectiveCaseList scope cases) :=
      List.perm_insertionSort caseLE (effectiveCaseList scope cases)
    have hnd2 : ((sortedCaseList scope cases).map (fun c => c.cid)).Nodup :=
      ((hperm.map _).nodup_iff).mpr hnd
    have hne : (sortedCaseList scope cases).Pairwise (fun a b => a.cid ≠ b.cid) :=
      List.pairwise_map.mp hnd2
    have hlt : (sortedCaseList scope cases).Pairwise (fun a b => a.cid < b.cid) := by
      have hand := hsorted.and hne
      exact hand.imp (fun h => lt_of_le_of_ne h.1 h.2)
    refine hlt.imp ?_
    intro a b hab x hx y hy
    have hxa := unitsForCase_case_id _ _ _ x hx
    have hyb := unitsForCase_case_id _ _ _ y hy
    left
    rw [hxa, hyb]
    exact hab

/-- C5 counterexample: with an explicit viewport list, the generator emits the
standard `VIEWPORTS` order `800x600, 1280x800`, but string-lexicographic order
on viewport names demands `"1280x800" < "800x600"`; so the returned list is
not sorted lexicographically by `(case_id, viewport_name, iteration)`: its
first element does not precede its second. -/
theorem generate_work_units_not_speclex :
    generate_work_units "all" (some ["about"]) (some ["800x600", "1280x800"]) 1 =
      [⟨"about", "crates/hiwave-app/src/ui/about.html", 800, 600, "builtins",
         "800x600", 1⟩,
       ⟨"about", "crates/hiwave-app/src/ui/about.html", 1280, 800, "builtins",
         "1280x800", 1⟩] ∧
    ¬specLex
      ⟨"about", "crates/hiwave-app/src/ui/about.html", 800, 600, "builtins",
        "800x600", 1⟩
      ⟨"about", "crates/hiwave-app/src/ui/about.html", 1280, 800, "builtins",
        "1280x800", 1⟩ := by
  constructor
  · with_unfolding_all decide
  · with_unfolding_all decide

/-- Witness for C5 (amended) at a concrete scope and viewport list. -/
theorem generate_work_units_sorted_witness :
    ((effectiveCaseList "all" none).map (fun c => c.cid)).Nodup ∧
    (generate_work_units "all" none (some ["800x600", "1280x800"]) 2).Pairwise
      (unitOrder (vpNameOrder (some ["800x600", "1280x800"]))) :=
  ⟨by decide,
    generate_work_units_sorted "all" none (some ["800x600", "1280x800"]) 2 (by decide)⟩

/-! ### C2: report comparison -/

theorem dictGet_mem {d : List (CaseKey × RCase)} {k : CaseKey} {v : RCase}
    (h : dictGet d k = some v) : (k, v) ∈ d := by
  unfold dictGet at h
  obtain ⟨p, hp, hmap⟩ := Option.map_eq_some'.mp h
  have hmem := List.mem_of_find?_eq_some hp
  have hdec := List.find?_some hp
  have hk : p.1 = k := of_decide_eq_true hdec
  have hpv : p = (k, v) := by
    cases p
    simp only [Prod.mk.injEq]
    exact ⟨hk, hmap⟩
  rwa [hpv] at hmem

theorem mem_dictGet {d : List (CaseKey × RCase)}
    (hnd : (d.map Prod.fst).Nodup) {k : CaseKey} {v : RCase}
    (h : (k, v) ∈ d) : dictGet d k = some v := by
  induction d with
  | nil => cases h
  | cons p d ih =>
    rw [List.map_cons] at hnd
    obtain ⟨hp1, hnd2⟩ := List.pairwise_cons.mp hnd
    rcases List.mem_cons.mp h with h1 | h1
    · unfold dictGet
      rw [List.find?_cons_of_pos]
      · simp [← h1]
      · rw [← h1]
        simp
    · have hk : p.1 ≠ k := fun he =>
        hp1 k (List.mem_map_of_mem Prod.fst h1) he
      unfold dictGet
      rw [List.find?_cons_of_neg]
      · exact ih hnd2 h1
      · simp [hk]

theorem dictInsert_inv {d : List (CaseKey × RCase)} {k : CaseKey} {v : RCase}
    (hk : k = (v.case_id, v.viewport))
    (h : (d.map Prod.fst).Nodup ∧ ∀ p ∈ d, p.1 = (p.2.case_id, p.2.viewport)) :
    ((dictInsert d k v).map Prod.fst).Nodup ∧
      ∀ p ∈ dictInsert d k v, p.1 = (p.2.case_id, p.2.viewport) := by
  unfold dictInsert
  split
  · constructor
    · have hkeys : (d.map (fun p => if p.1 = k then (k, v) else p)).map Prod.fst =
          d.map Prod.fst := by
        rw [List.map_map]
        apply List.map_congr_left
        intro p _
        by_cases hpk : p.1 = k
        · simp [hpk]
        · simp [hpk]
      rw [hkeys]
      exact h.1
    · intro p hp
      obtain ⟨q, hq, hpq⟩ := List.mem_map.mp hp
      by_cases hqk : q.1 = k
      · rw [← hpq]
        simp only [hqk, if_true]
        exact hk
      · rw [← hpq]
        simp only [hqk, if_false]
        exact h.2 q hq
  · rename_i hany
    constructor
    · rw [List.map_append]
      apply List.Nodup.append h.1 (List.nodup_singleton k)
      intro a ha hb
      have hak : a = k := List.mem_singleton.mp hb
      obtain ⟨q, hq, hqa⟩ := List.mem_map.mp ha
      apply hany
      rw [List.any_eq_true]
      exact ⟨q, hq, decide_eq_true (by rw [hqa, hak])⟩
    · intro p hp
      rcases List.mem_append.mp hp with h1 | h1
      · exact h.2 p h1
      · rw [List.mem_singleton.mp h1]
        exact hk

theorem toCaseDict_inv (cs : List RCase) :
    ((toCaseDict cs).map Prod.fst).Nodup ∧
      ∀ p ∈ toCaseDict cs, p.1 = (p.2.case_id, p.2.viewport) := by
  unfold toCaseDict
  suffices hgen : ∀ d : List (CaseKey × RCase),
      ((d.map Prod.fst).Nodup ∧ ∀ p ∈ d, p.1 = (p.2.case_id, p.2.viewport)) →
      (((cs.foldl (fun d c => dictInsert d (c.case_id, c.viewport) c) d).map
          Prod.fst).Nodup ∧
        ∀ p ∈ cs.foldl (fun d c => dictInsert d (c.case_id, c.viewport) c) d,
          p.1 = (p.2.case_id, p.2.viewport)) by
    exact hgen [] ⟨List.Pairwise.nil, fun p hp => absurd hp (List.not_mem_nil p)⟩
  induction cs with
  | nil => exact fun d h => h
  | cons c cs ih =>
    intro d hd
    exact ih _ (dictInsert_inv rfl hd)

theorem filterMap_check_mem_iff {β : Type}
    (cd : List (CaseKey × RCase))
    (hcnd : (cd.map Prod.fst).Nodup)
    (hcinv : ∀ p ∈ cd, p.1 = (p.2.case_id, p.2.viewport))
    (check : CaseKey × RCase → Option β)
    (keyOf : β → CaseKey)
    (hkey : ∀ p e, check p = some e → keyOf e = (p.2.case_id, p.2.viewport))
    (k : CaseKey) (cur : RCase) (hc : dictGet cd k = some cur) :
    ((∃ e ∈ cd.filterMap check, keyOf e = k) ↔ ∃ e, check (k, cur) = some e) := by
  constructor
  · rintro ⟨e, he, hek⟩
    obtain ⟨p, hp, hfp⟩ := List.mem_filterMap.mp he
    have h1 : keyOf e = (p.2.case_id, p.2.viewport) := hkey p e hfp
    have h2 : p.1 = k := by rw [hcinv p hp, ← h1, hek]
    have h3 : (p.1, p.2) ∈ cd := hp
    rw [h2] at h3
    have h5 : p.2 = cur := Option.some.inj ((mem_dictGet hcnd h3).symm.trans hc)
    have h6 : (k, cur) = p := by rw [← h2, ← h5]
    exact ⟨e, h6 ▸ hfp⟩
  · rintro ⟨e, hce⟩
    have hmemc : (k, cur) ∈ cd := dictGet_mem hc
    refine ⟨e, List.mem_filterMap.mpr ⟨(k, cur), hmemc, hce⟩, ?_⟩
    exact (hkey (k, cur) e hce).trans (hcinv (k, cur) hmemc).symm

theorem regCheck_key (bd : List (CaseKey × RCase)) (budget : ℚ) :
    ∀ (p : CaseKey × RCase) (e : RegEntry), regCheck bd budget p = some e →
      (e.case_id, e.viewport) = (p.2.case_id, p.2.viewport) := by
  intro p e h
  unfold regCheck at h
  cases hg : dictGet bd p.1 with
  | none => rw [hg] at h; cases h
  | some base =>
    rw [hg] at h
    dsimp only at h
    by_cases hc : budget < p.2.diff_pct - base.diff_pct
    · rw [if_pos hc] at h
      rw [← Option.some.inj h]
    · rw [if_neg hc] at h; cases h

theorem impCheck_key (bd : List (CaseKey × RCase)) (budget : ℚ) :
    ∀ (p : CaseKey × RCase) (e : RegEntry), impCheck bd budget p = some e →
      (e.case_id, e.viewport) = (p.2.case_id, p.2.viewport) := by
  intro p e h
  unfold impCheck at h
  cases hg : dictGet bd p.1 with
  | none => rw [hg] at h; cases h
  | some base =>
    rw [hg] at h
    dsimp only at h
    by_cases hc : p.2.diff_pct - base.diff_pct < -budget
    · rw [if_pos hc] at h
      rw [← Option.some.inj h]
    · rw [if_neg hc] at h; cases h

theorem nfCheck_key (bd : List (CaseKey × RCase)) :
    ∀ (p : CaseKey × RCase) (e : NewFailureEntry), nfCheck bd p = some e →
      (e.case_id, e.viewport) = (p.2.case_id, p.2.viewport) := by
  intro p e h
  unfold nfCheck at h
  cases hg : dictGet bd p.1 with
  | some base => rw [hg] at h; cases h
  | none =>
    rw [hg] at h
    dsimp only at h
    by_cases hc : p.2.passed = true
    · rw [if_pos hc] at h; cases h
    · rw [if_neg hc] at h
      rw [← Option.some.inj h]

theorem regCheck_some_iff (bd : List (CaseKey × RCase)) (budget : ℚ)
    (k : CaseKey) (cur base : RCase) (hb : dictGet bd k = some base) :
    (∃ e, regCheck bd budget (k, cur) = some e) ↔
      budget < cur.diff_pct - base.diff_pct := by
  unfold regCheck
  dsimp only
  rw [hb]
  dsimp only
  by_cases hc : budget < cur.diff_pct - base.diff_pct
  · simp [hc]
  · simp [hc]

theorem impCheck_some_iff (bd : List (CaseKey × RCase)) (budget : ℚ)
    (k : CaseKey) (cur base : RCase) (hb : dictGet bd k = some base) :
    (∃ e, impCheck bd budget (k, cur) = some e) ↔
      cur.diff_pct - base.diff_pct < -budget := by
  unfold impCheck
  dsimp only
  rw [hb]
  dsimp only
  by_cases hc : cur.diff_pct - base.diff_pct < -budget
  · simp [hc]
  · simp [hc]

theorem nfCheck_some_iff (bd : List (CaseKey × RCase)) (k : CaseKey) (cur : RCase)
    (hb : dictGet bd k = none) :
    (∃ e, nfCheck bd (k, cur) = some e) ↔ cur.passed = false := by
  unfold nfCheck
  dsimp only
  rw [hb]
  dsimp only
  cases hcp : cur.passed <;> simp [hcp]

/-- C2: `compare_reports` classifies every `(case_id, viewport)` key present
in both report dicts by `delta = current.diff_pct - baseline.diff_pct`: it is
listed as a regression exactly when `delta > budget` and as an improvement
exactly when `delta < -budget` (hence unchanged otherwise); a key present only
in the current report is listed as a new failure exactly when the current case
did not pass; and the gate verdict `pass` is true exactly when there are no
regressions and no new failures. -/
theorem compare_reports_classification (baseline current : Report) (budget : ℚ) :
    (∀ (k : CaseKey) (cur base : RCase),
        dictGet (toCaseDict current.cases) k = some cur →
        dictGet (toCaseDict baseline.cases) k = some base →
        ((∃ e ∈ (compare_reports baseline current budget).regressions,
            (e.case_id, e.viewport) = k) ↔
          budget < cur.diff_pct - base.diff_pct) ∧
        ((∃ e ∈ (compare_reports baseline current budget).improvements,
            (e.case_id, e.viewport) = k) ↔
          cur.diff_pct - base.diff_pct < -budget)) ∧
    (∀ (k : CaseKey) (cur : RCase),
        dictGet (toCaseDict current.cases) k = some cur →
        dictGet (toCaseDict baseline.cases) k = none →
        ((∃ e ∈ (compare_reports baseline current budget).new_failures,
            (e.case_id, e.viewport) = k) ↔ cur.passed = false)) ∧
    ((compare_reports baseline current budget).summary.pass = true ↔
      (compare_reports baseline current budget).regressions = [] ∧
      (compare_reports baseline current budget).new_failures = []) := by
  obtain ⟨hcnd, hcinv⟩ := toCaseDict_inv current.cases
  have hreg : (compare_reports baseline current budget).regressions =
      List.insertionSort regSortRel ((toCaseDict current.cases).filterMap
        (regCheck (toCaseDict baseline.cases) budget)) := rfl
  have himp : (compare_reports baseline current budget).improvements =
      List.insertionSort impSortRel ((toCaseDict current.cases).filterMap
        (impCheck (toCaseDict baseline.cases) budget)) := rfl
  have hnf : (compare_reports baseline current budget).new_failures =
      (toCaseDict current.cases).filterMap (nfCheck (toCaseDict baseline.cases)) := rfl
  have hpass : (compare_reports baseline current budget).summary.pass =
      (decide (((toCaseDict current.cases).filterMap
          (regCheck (toCaseDict baseline.cases) budget)).length = 0) &&
        decide (((toCaseDict current.cases).filterMap
          (nfCheck (toCaseDict baseline.cases))).length = 0)) := rfl
  refine ⟨?_, ?_, ?_⟩
  · intro k cur base hc hb
    constructor
    · rw [hreg]
      have hiff := filterMap_check_mem_iff (toCaseDict current.cases) hcnd hcinv
        (regCheck (toCaseDict baseline.cases) budget)
        (fun e => (e.case_id, e.viewport))
        (regCheck_key (toCaseDict baseline.cases) budget) k cur hc
      constructor
      · rintro ⟨e, he, hek⟩
        rw [List.mem_insertionSort] at he
        exact (regCheck_some_iff _ budget k cur base hb).mp (hiff.mp ⟨e, he, hek⟩)
      · intro hcond
        obtain ⟨e, he, hek⟩ :=
          hiff.mpr ((regCheck_some_iff _ budget k cur base hb).mpr hcond)
        exact ⟨e, (List.mem_insertionSort regSortRel).mpr he, hek⟩
    · rw [himp]
      have hiff := filterMap_check_mem_iff (toCaseDict current.cases) hcnd hcinv
        (impCheck (toCaseDict baseline.cases) budget)
        (fun e => (e.case_id, e.viewport))
        (impCheck_key (toCaseDict baseline.cases) budget) k cur hc
      constructor
      · rintro ⟨e, he, hek⟩
        rw [List.mem_insertionSort] at he
        exact (impCheck_some_iff _ budget k cur base hb).mp (hiff.mp ⟨e, he, hek⟩)
      · intro hcond
        obtain ⟨e, he, hek⟩ :=
          hiff.mpr ((impCheck_some_iff _ budget k cur base hb).mpr hcond)
        exact ⟨e, (List.mem_insertionSort impSortRel).mpr he, hek⟩
  · intro k cur hc hb
    rw [hnf]
    exact (filterMap_check_mem_iff (toCaseDict current.cases) hcnd hcinv
      (nfCheck (toCaseDict baseline.cases)) (fun e => (e.case_id, e.viewport))
      (nfCheck_key (toCaseDict baseline.cases)) k cur hc).trans
      (nfCheck_some_iff _ k cur hb)
  · rw [hpass, hreg, hnf]
    simp only [Bool.and_eq_true, decide_eq_true_iff, List.length_eq_zero]
    constructor
    · rintro ⟨h1, h2⟩
      rw [h1]
      exact ⟨rfl, h2⟩
    · rintro ⟨h1, h2⟩
      refine ⟨?_, h2⟩
      have hl := (List.perm_insertionSort regSortRel
        ((toCaseDict current.cases).filterMap
          (regCheck (toCaseDict baseline.cases) budget))).length_eq
      rw [h1] at hl
      exact List.length_eq_zero.mp hl.symm

/-- Witness for C2: the §8 scenario — baseline diff 10, budget 0.5; current
10.3 is no regression, current 10.6 is a regression; the 10.3 comparison
passes the gate. -/
theorem compare_reports_classification_witness :
    dictGet (toCaseDict demoCurrentOk.cases) ("alpha", "800x600") =
      some ⟨"alpha", "800x600", 103/10, true⟩ ∧
    dictGet (toCaseDict demoCurrentBad.cases) ("alpha", "800x600") =
      some ⟨"alpha", "800x600", 53/5, true⟩ ∧
    dictGet (toCaseDict demoBaselineReport.cases) ("alpha", "800x600") =
      some ⟨"alpha", "800x600", 10, true⟩ ∧
    (¬∃ e ∈ (compare_reports demoBaselineReport demoCurrentOk (1/2)).regressions,
        (e.case_id, e.viewport) = (("alpha", "800x600") : CaseKey)) ∧
    (∃ e ∈ (compare_reports demoBaselineReport demoCurrentBad (1/2)).regressions,
        (e.case_id, e.viewport) = (("alpha", "800x600") : CaseKey)) ∧
    (compare_reports demoBaselineReport demoCurrentOk (1/2)).summary.pass = true := by
  have hok : dictGet (toCaseDict demoCurrentOk.cases) ("alpha", "800x600") =
      some ⟨"alpha", "800x600", 103/10, true⟩ := by with_unfolding_all decide
  have hbad : dictGet (toCaseDict demoCurrentBad.cases) ("alpha", "800x600") =
      some ⟨"alpha", "800x600", 53/5, true⟩ := by with_unfolding_all decide
  have hbase : dictGet (toCaseDict demoBaselineReport.cases) ("alpha", "800x600") =
      some ⟨"alpha", "800x600", 10, true⟩ := by with_unfolding_all decide
  refine ⟨hok, hbad, hbase, ?_, ?_, ?_⟩
  · intro hex
    have h := ((compare_reports_classification demoBaselineReport demoCurrentOk
      (1/2)).1 ("alpha", "800x600") ⟨"alpha", "800x600", 103/10, true⟩
      ⟨"alpha", "800x600", 10, true⟩ hok hbase).1.mp hex
    exact absurd h (by with_unfolding_all decide)
  · exact ((compare_reports_classification demoBaselineReport demoCurrentBad
      (1/2)).1 ("alpha", "800x600") ⟨"alpha", "800x600", 53/5, true⟩
      ⟨"alpha", "800x600", 10, true⟩ hbad hbase).1.mpr
      (by with_unfolding_all decide)
  · exact (compare_reports_classification demoBaselineReport demoCurrentOk
      (1/2)).2.2.mpr (by with_unfolding_all decide)

end Parity
